import Mathlib

/-!
# Verification of the tempo sharded-search progress aggregator

This file gives a shallow embedding, in Lean 4, of the sharded-search
progress aggregator (`searchProgress` in the `frontend` package) and of the
Azure versioned-write path (`Azure.WriteVersioned`), and proves the spec's
claims about them.

Machine integers are modelled as `Nat`/`Int` with explicit reduction
modulo `2^32` / `2^64` where the Go code uses `uint32` / `uint64`
(the fields of `tempopb.SearchMetrics`), and with two's-complement
wrap-around for the 64-bit signed Go `int` counters.

The Go `resultsMetrics` field is a *pointer* to a `tempopb.SearchMetrics`
record; snapshot isolation (whether a snapshot aliases the sink's record)
is a statement about that pointer.  We therefore model the mutable
metrics records in a small explicit heap (`List SearchMetrics`, addresses
are indices; allocation appends) and both the sink and snapshots hold
addresses into it, exactly mirroring which Go code allocates a fresh
record and which code mutates one in place.
-/

namespace Tempo

/-- Reduction of a Go `int` (64-bit signed) to `uint32`: `uint32(x)`. -/
def u32ofInt (x : Int) : Nat := (x % (2 ^ 32 : Int)).toNat

/-- Reduction of a Go `int` (64-bit signed) to `uint64`: `uint64(x)`. -/
def u64ofInt (x : Int) : Nat := (x % (2 ^ 64 : Int)).toNat

/-- `uint32` addition (wraps modulo `2^32`). -/
def u32add (a b : Nat) : Nat := (a + b) % 2 ^ 32

/-- `uint64` addition (wraps modulo `2^64`). -/
def u64add (a b : Nat) : Nat := (a + b) % 2 ^ 64

/-- Two's-complement wrap of a 64-bit signed Go `int`. -/
def intWrap64 (x : Int) : Int := (x + 2 ^ 63) % 2 ^ 64 - 2 ^ 63

/-- Go `error` values (opaque; `none` is the nil error). -/
abbrev GoErr := String

/-- The `tempopb.SearchMetrics` record.  All fields are `uint32` except
`InspectedBytes` and `TotalBlockBytes`, which are `uint64`; operations keep
each field reduced modulo its width. -/
structure SearchMetrics where
  InspectedTraces : Nat
  InspectedBytes : Nat
  TotalBlocks : Nat
  CompletedJobs : Nat
  TotalJobs : Nat
  TotalBlockBytes : Nat
deriving DecidableEq, Repr

/-- Modelled from the spec: the distinct-trace metadata entry handled by
`traceql.MetadataCombiner` (whose code is not part of the sources here,
only its call sites).  Per the spec's combiner contract it consists of a
trace identifier plus further metadata which the combiner reconciles with
a commutative, associative merge in which the richer record wins; we model
the identifier as a `Nat` and the rest of the record as a single `Nat`
payload merged by `max`. -/
structure TraceSearchMetadata where
  TraceID : Nat
  payload : Nat
deriving DecidableEq, Repr

/-- Modelled from the spec: the state of `traceql.MetadataCombiner` — a
deduplicated set of entries keyed by trace identifier, rendered in a
deterministic order by a stable sort key.  We represent it canonically as
a list strictly sorted by `TraceID`. -/
abbrev MetadataCombiner := List TraceSearchMetadata

/-- Modelled from the spec: `traceql.NewMetadataCombiner()` — the empty
combiner. -/
def NewMetadataCombiner : MetadataCombiner := []

/-- Modelled from the spec: `MetadataCombiner.AddMetadata` — merge one
entry; an entry whose trace identifier is already present is reconciled
(richer record wins) rather than duplicated.  Sorted insertion keeps the
representation canonical. -/
def AddMetadata : MetadataCombiner → TraceSearchMetadata → MetadataCombiner
  | [], e => [e]
  | x :: rest, e =>
    if e.TraceID < x.TraceID then e :: x :: rest
    else if e.TraceID = x.TraceID then ⟨x.TraceID, max x.payload e.payload⟩ :: rest
    else x :: AddMetadata rest e

/-- Modelled from the spec: `MetadataCombiner.Count()` — the number of
distinct entries. -/
def combinerCount (c : MetadataCombiner) : Nat := c.length

/-- Modelled from the spec: `MetadataCombiner.Metadata()` — the entries in
a deterministic order independent of insertion order, returned as a copy
that does not alias the combiner's internal storage. -/
def combinerMetadata (c : MetadataCombiner) : List TraceSearchMetadata := c

/-- The `tempopb.SearchResponse` handed to `addResponse`: a sequence of
trace entries plus a `Metrics` pointer (`none` models a nil pointer). -/
structure SearchResponse where
  Traces : List TraceSearchMetadata
  Metrics : Option SearchMetrics
deriving DecidableEq, Repr

/-- The sink state of `searchProgress` (sans the mutex, which serializes
calls; here each operation is a single atomic step).  `metricsAddr` is the
`resultsMetrics` pointer, an address into the explicit heap.  `ctxErr`
models whether `ctx.Err() != nil`, i.e. whether the cancellation context
has fired. -/
structure searchProgress where
  err : Option GoErr
  statusCode : Int
  statusMsg : String
  ctxErr : Bool
  resultsCombiner : MetadataCombiner
  metricsAddr : Nat
  finishedRequests : Int
  limit : Int
deriving DecidableEq, Repr

/-- A world: the heap of `tempopb.SearchMetrics` records plus the sink. -/
structure World where
  heap : List SearchMetrics
  prog : searchProgress
deriving DecidableEq, Repr

/-- Read a heap address (out-of-range reads return a zeroed record; they
never occur for valid addresses). -/
def heapGet (h : List SearchMetrics) (a : Nat) : SearchMetrics :=
  h.getD a ⟨0, 0, 0, 0, 0, 0⟩

/-- `newSearchProgress(ctx, limit, totalJobs, totalBlocks, totalBlockBytes)`:
allocates the `resultsMetrics` record with the plan totals narrowed to
`uint32`/`uint64`, an empty combiner, status `http.StatusOK` (200), and no
error.  `ctxFired` is the initial state of the cancellation context. -/
def newSearchProgress (ctxFired : Bool) (limit totalJobs totalBlocks totalBlockBytes : Int) :
    World :=
  { heap := [{ InspectedTraces := 0, InspectedBytes := 0,
               TotalBlocks := u32ofInt totalBlocks, CompletedJobs := 0,
               TotalJobs := u32ofInt totalJobs,
               TotalBlockBytes := u64ofInt totalBlockBytes }],
    prog := { err := none, statusCode := 200, statusMsg := "", ctxErr := ctxFired,
              resultsCombiner := NewMetadataCombiner, metricsAddr := 0,
              finishedRequests := 0, limit := limit } }

/-- `searchProgress.setStatus(statusCode, statusMsg)`. -/
def setStatus (w : World) (statusCode : Int) (statusMsg : String) : World :=
  { w with prog := { w.prog with statusCode := statusCode, statusMsg := statusMsg } }

/-- `searchProgress.setError(err)`: unconditionally overwrites the
recorded error. -/
def setError (w : World) (e : Option GoErr) : World :=
  { w with prog := { w.prog with err := e } }

/-- `searchProgress.addResponse(res)`: feeds every entry of `res.Traces`
into the combiner, sums `InspectedBytes`/`InspectedTraces` into the
aggregate record, increments `CompletedJobs` and `finishedRequests`, and
deliberately ignores the response's own plan totals.  `applyResponseCore`
is the body after the `res.Metrics` dereference has succeeded; the Go
code dereferences `res.Metrics` unconditionally, so `addResponse` with a
nil `Metrics` faults: the result is `none`.  `bumpMetrics` is the mutation
of the aggregate record: it sums `InspectedBytes` and `InspectedTraces`
from the partial result and increments `CompletedJobs`, ignoring the plan
totals of the partial result. -/
def bumpMetrics (cur m : SearchMetrics) : SearchMetrics :=
  { cur with
    InspectedBytes := u64add cur.InspectedBytes m.InspectedBytes,
    InspectedTraces := u32add cur.InspectedTraces m.InspectedTraces,
    CompletedJobs := u32add cur.CompletedJobs 1 }

def applyResponseCore (w : World) (ts : List TraceSearchMetadata) (m : SearchMetrics) :
    World :=
  { heap := w.heap.set w.prog.metricsAddr
      (bumpMetrics (heapGet w.heap w.prog.metricsAddr) m),
    prog := { w.prog with
              resultsCombiner := ts.foldl AddMetadata w.prog.resultsCombiner,
              finishedRequests := intWrap64 (w.prog.finishedRequests + 1) } }

def addResponse (w : World) (res : SearchResponse) : Option World :=
  match res.Metrics with
  | none => none
  | some m => some (applyResponseCore w res.Traces m)

/-- `searchProgress.internalShouldQuit()`: quit iff an error is recorded,
or the context has fired, or the status is outside the 2xx range
(Go integer division truncates toward zero), or the combiner's distinct
count strictly exceeds the limit. -/
def internalShouldQuit (w : World) : Bool :=
  if w.prog.err.isSome then true
  else if w.prog.ctxErr then true
  else if w.prog.statusCode.tdiv 100 ≠ 2 then true
  else if (combinerCount w.prog.resultsCombiner : Int) > w.prog.limit then true
  else false

/-- `searchProgress.shouldQuit()` (locking aside, identical to
`internalShouldQuit`). -/
def shouldQuit (w : World) : Bool := internalShouldQuit w

/-- The `response` field of a snapshot: a freshly allocated metrics record
(held by address) plus the combined trace sequence. -/
structure SearchResponseSnap where
  MetricsAddr : Nat
  Traces : List TraceSearchMetadata
deriving DecidableEq, Repr

/-- `shardedSearchResults`, the snapshot returned by `result()`. -/
structure shardedSearchResults where
  response : SearchResponseSnap
  statusCode : Int
  statusMsg : String
  err : Option GoErr
  finishedRequests : Int
deriving DecidableEq, Repr

/-- `searchProgress.result()`: builds a snapshot whose metrics record is a
freshly allocated field-by-field clone of the sink's record and whose
trace sequence is the combiner's rendered output.  Returns the new world
(the heap has grown by the clone) and the snapshot. -/
def result (w : World) : World × shardedSearchResults :=
  let cur := heapGet w.heap w.prog.metricsAddr
  let clone : SearchMetrics :=
    { InspectedTraces := cur.InspectedTraces, InspectedBytes := cur.InspectedBytes,
      TotalBlocks := cur.TotalBlocks, CompletedJobs := cur.CompletedJobs,
      TotalJobs := cur.TotalJobs, TotalBlockBytes := cur.TotalBlockBytes }
  ({ heap := w.heap ++ [clone], prog := w.prog },
   { response := { MetricsAddr := w.heap.length,
                   Traces := combinerMetadata w.prog.resultsCombiner },
     statusCode := w.prog.statusCode, statusMsg := w.prog.statusMsg,
     err := w.prog.err, finishedRequests := w.prog.finishedRequests })

/-- Run a sequence of `addResponse` calls; a faulting call (nil `Metrics`)
aborts the run. -/
def applyResponses (w : World) : List SearchResponse → Option World
  | [] => some w
  | r :: rs => match addResponse w r with
    | none => none
    | some w' => applyResponses w' rs

/-- One call of the sink interface `{setStatus, setError, addResponse,
shouldQuit, result}`.  `shouldQuit` reads state without changing it;
`result` allocates the snapshot clone (its return value is ignored here). -/
inductive Op where
  | opSetStatus (code : Int) (msg : String)
  | opSetError (e : Option GoErr)
  | opAddResponse (res : SearchResponse)
  | opShouldQuit
  | opResult
deriving DecidableEq, Repr

/-- The world after one interface call. -/
def stepOp (w : World) : Op → Option World
  | .opSetStatus c m => some (setStatus w c m)
  | .opSetError e => some (setError w e)
  | .opAddResponse r => addResponse w r
  | .opShouldQuit => some w
  | .opResult => some (result w).1

/-- Run a sequence of interface calls. -/
def runOps (w : World) : List Op → Option World
  | [] => some w
  | o :: os => match stepOp w o with
    | none => none
    | some w' => runOps w' os

/-- The number of `addResponse` calls in an operation sequence. -/
def countAdds : List Op → Nat
  | [] => 0
  | .opAddResponse _ :: os => countAdds os + 1
  | _ :: os => countAdds os

end Tempo

/-!
## The Azure versioned store

A model of `Azure.WriteVersioned` (and the raw write/read it is built
from).  The blob container is a map from object name to content plus the
service-assigned version (the ETag); a raw write stores the data and the
service assigns a fresh tag, which the model takes as a parameter.
-/

namespace AzureModel

/-- Object contents (opaque bytes). -/
abbrev Bytes := List Nat

/-- `backend.Version`: an opaque version token (the Azure ETag). -/
abbrev Version := String

/-- `backend.VersionNew`, the token for an object that does not yet exist. -/
def VersionNew : Version := "0"

/-- The backend error taxonomy relevant to the versioned path. -/
inductive BackendError where
  | doesNotExist
  | versionDoesNotMatch
deriving DecidableEq, Repr

/-- The blob container: name to (content, current version). -/
abbrev Store := String → Option (Bytes × Version)

/-- A raw (unconditional) write: stores the data; the service assigns the
fresh tag `newTag`. -/
def rawWrite (s : Store) (name : String) (data : Bytes) (newTag : Version) : Store :=
  fun n => if n = name then some (data, newTag) else s n

/-- `Azure.ReadVersioned`: content plus current version, or
`ErrDoesNotExist`. -/
def ReadVersioned (s : Store) (name : String) : Except BackendError (Bytes × Version) :=
  match s name with
  | none => .error .doesNotExist
  | some bv => .ok bv

/-- `Azure.WriteVersioned`: reads the current version; if the object does
not exist the supplied version must be `VersionNew`, otherwise it must
equal the current version; on mismatch returns `ErrVersionDoesNotMatch`
without writing; otherwise writes and returns the version read back after
the write. -/
def WriteVersioned (s : Store) (name : String) (data : Bytes) (version : Version)
    (newTag : Version) : Store × Except BackendError Version :=
  match s name with
  | none =>
    if version ≠ VersionNew then (s, .error .versionDoesNotMatch)
    else
      let s' := rawWrite s name data newTag
      (s', match ReadVersioned s' name with
           | .ok (_, v) => .ok v
           | .error e => .error e)
  | some (_, currentVersion) =>
    if version ≠ currentVersion then (s, .error .versionDoesNotMatch)
    else
      let s' := rawWrite s name data newTag
      (s', match ReadVersioned s' name with
           | .ok (_, v) => .ok v
           | .error e => .error e)

end AzureModel

namespace Tempo

/-! ## Combiner lemmas: sorted-insertion merge commutes -/

theorem AddMetadata_cons_lt {e x : TraceSearchMetadata} (r : MetadataCombiner)
    (h : e.TraceID < x.TraceID) : AddMetadata (x :: r) e = e :: x :: r := by
  simp [AddMetadata, h]

theorem AddMetadata_cons_eq {e x : TraceSearchMetadata} (r : MetadataCombiner)
    (h : e.TraceID = x.TraceID) :
    AddMetadata (x :: r) e = ⟨x.TraceID, max x.payload e.payload⟩ :: r := by
  have h1 : ¬ e.TraceID < x.TraceID := by omega
  simp [AddMetadata, h1, h]

theorem AddMetadata_cons_gt {e x : TraceSearchMetadata} (r : MetadataCombiner)
    (h : x.TraceID < e.TraceID) : AddMetadata (x :: r) e = x :: AddMetadata r e := by
  have h1 : ¬ e.TraceID < x.TraceID := by omega
  have h2 : ¬ e.TraceID = x.TraceID := by omega
  simp [AddMetadata, h1, h2]

/-- Inserting two entries into the combiner commutes: the merge is
reconciliation by key with a commutative payload merge, and insertion is
positional by key. -/
theorem AddMetadata_comm (a b : TraceSearchMetadata) :
    ∀ c : MetadataCombiner,
      AddMetadata (AddMetadata c a) b = AddMetadata (AddMetadata c b) a := by
  intro c
  induction c with
  | nil =>
    show AddMetadata [a] b = AddMetadata [b] a
    rcases Nat.lt_trichotomy a.TraceID b.TraceID with hab | hab | hab
    · rw [AddMetadata_cons_gt [] hab, AddMetadata_cons_lt [] hab]
      rfl
    · rw [AddMetadata_cons_eq [] hab.symm, AddMetadata_cons_eq [] hab]
      simp [TraceSearchMetadata.mk.injEq, hab, max_comm]
    · rw [AddMetadata_cons_lt [] hab, AddMetadata_cons_gt [] hab]
      rfl
  | cons x rest ih =>
    rcases Nat.lt_trichotomy a.TraceID x.TraceID with hax | hax | hax
    · rw [AddMetadata_cons_lt rest hax]
      rcases Nat.lt_trichotomy b.TraceID a.TraceID with hba | hba | hba
      · have hbx : b.TraceID < x.TraceID := by omega
        rw [AddMetadata_cons_lt (x :: rest) hba, AddMetadata_cons_lt rest hbx,
          AddMetadata_cons_gt (x :: rest) hba, AddMetadata_cons_lt rest hax]
      · have hbx : b.TraceID < x.TraceID := by omega
        rw [AddMetadata_cons_eq (x :: rest) hba, AddMetadata_cons_lt rest hbx,
          AddMetadata_cons_eq (x :: rest) hba.symm]
        simp [TraceSearchMetadata.mk.injEq, hba, max_comm]
      · rw [AddMetadata_cons_gt (x :: rest) hba]
        rcases Nat.lt_trichotomy b.TraceID x.TraceID with hbx | hbx | hbx
        · rw [AddMetadata_cons_lt rest hbx, AddMetadata_cons_lt (x :: rest) hba]
        · rw [AddMetadata_cons_eq rest hbx,
            AddMetadata_cons_lt (x := ⟨x.TraceID, max x.payload b.payload⟩) rest hax]
        · rw [AddMetadata_cons_gt rest hbx, AddMetadata_cons_lt (AddMetadata rest b) hax]
    · rw [AddMetadata_cons_eq rest hax]
      rcases Nat.lt_trichotomy b.TraceID x.TraceID with hbx | hbx | hbx
      · have hba : b.TraceID < a.TraceID := by omega
        rw [AddMetadata_cons_lt (x := ⟨x.TraceID, max x.payload a.payload⟩) rest hbx,
          AddMetadata_cons_lt rest hbx, AddMetadata_cons_gt (x :: rest) hba,
          AddMetadata_cons_eq rest hax]
      · rw [AddMetadata_cons_eq (x := ⟨x.TraceID, max x.payload a.payload⟩) rest hbx,
          AddMetadata_cons_eq rest hbx,
          AddMetadata_cons_eq (x := ⟨x.TraceID, max x.payload b.payload⟩) rest hax]
        simp [TraceSearchMetadata.mk.injEq, sup_right_comm]
      · rw [AddMetadata_cons_gt (x := ⟨x.TraceID, max x.payload a.payload⟩) rest hbx,
          AddMetadata_cons_gt rest hbx,
          AddMetadata_cons_eq (AddMetadata rest b) hax]
    · rw [AddMetadata_cons_gt rest hax]
      rcases Nat.lt_trichotomy b.TraceID x.TraceID with hbx | hbx | hbx
      · have hba : b.TraceID < a.TraceID := by omega
        rw [AddMetadata_cons_lt (AddMetadata rest a) hbx, AddMetadata_cons_lt rest hbx,
          AddMetadata_cons_gt (x :: rest) hba, AddMetadata_cons_gt rest hax]
      · rw [AddMetadata_cons_eq (AddMetadata rest a) hbx, AddMetadata_cons_eq rest hbx,
          AddMetadata_cons_gt (x := ⟨x.TraceID, max x.payload b.payload⟩) rest hax]
      · rw [AddMetadata_cons_gt (AddMetadata rest a) hbx, AddMetadata_cons_gt rest hbx,
          AddMetadata_cons_gt (AddMetadata rest b) hax, ih]

instance : RightCommutative AddMetadata := ⟨fun c a b => AddMetadata_comm a b c⟩

/-- Folding the combiner over a permuted entry list yields the same
combiner. -/
theorem foldl_AddMetadata_perm {l₁ l₂ : List TraceSearchMetadata}
    (h : l₁.Perm l₂) (c : MetadataCombiner) :
    l₁.foldl AddMetadata c = l₂.foldl AddMetadata c :=
  h.foldl_eq c

/-- Folding in two whole entry lists commutes. -/
theorem foldl_AddMetadata_swap (l₁ l₂ : List TraceSearchMetadata) (c : MetadataCombiner) :
    l₂.foldl AddMetadata (l₁.foldl AddMetadata c)
      = l₁.foldl AddMetadata (l₂.foldl AddMetadata c) := by
  rw [← List.foldl_append, ← List.foldl_append]
  exact foldl_AddMetadata_perm List.perm_append_comm c

/-! ## Heap lemmas -/

theorem heapGet_set_self {h : List SearchMetrics} {a : Nat} (v : SearchMetrics)
    (ha : a < h.length) : heapGet (h.set a v) a = v := by
  simp [heapGet, List.getD, List.getElem?_set_self', ha]

theorem heapGet_set_ne {h : List SearchMetrics} {a b : Nat} (v : SearchMetrics)
    (hab : a ≠ b) : heapGet (h.set a v) b = heapGet h b := by
  simp [heapGet, List.getD, List.getElem?_set_ne hab]

theorem heapGet_append_left {h h' : List SearchMetrics} {a : Nat}
    (ha : a < h.length) : heapGet (h ++ h') a = heapGet h a := by
  simp [heapGet, List.getD, List.getElem?_append_left ha]

theorem heapGet_append_length (h : List SearchMetrics) (v : SearchMetrics) :
    heapGet (h ++ [v]) h.length = v := by
  simp [heapGet, List.getD]

/-- Two read-modify-write updates through the same address commute when the
modifications commute. -/
theorem heap_update_twice (h : List SearchMetrics) (a : Nat)
    (f g : SearchMetrics → SearchMetrics) (hfg : ∀ c, f (g c) = g (f c)) :
    (h.set a (f (heapGet h a))).set a (g (heapGet (h.set a (f (heapGet h a))) a))
      = (h.set a (g (heapGet h a))).set a (f (heapGet (h.set a (g (heapGet h a))) a)) := by
  by_cases ha : a < h.length
  · have ha1 : a < (h.set a (f (heapGet h a))).length := by simpa using ha
    have ha2 : a < (h.set a (g (heapGet h a))).length := by simpa using ha
    rw [heapGet_set_self _ ha, heapGet_set_self _ ha, List.set_set, List.set_set, hfg]
  · have hle : h.length ≤ a := Nat.le_of_not_lt ha
    simp [List.set_eq_of_length_le hle]

/-! ## Step commutation and order independence -/

/-- The successful `addResponse` step as a total function; coincides with
`addResponse` whenever `Metrics` is non-nil. -/
def stepPure (w : World) (r : SearchResponse) : World :=
  applyResponseCore w r.Traces (r.Metrics.getD ⟨0, 0, 0, 0, 0, 0⟩)

theorem bumpMetrics_comm (m₁ m₂ : SearchMetrics) (c : SearchMetrics) :
    bumpMetrics (bumpMetrics c m₁) m₂ = bumpMetrics (bumpMetrics c m₂) m₁ := by
  simp [bumpMetrics, u64add, u32add, SearchMetrics.mk.injEq]
  omega

/-- `addResponse` steps commute: merging two partial results in either
order produces the same sink state. -/
theorem stepPure_comm (w : World) (r₁ r₂ : SearchResponse) :
    stepPure (stepPure w r₁) r₂ = stepPure (stepPure w r₂) r₁ := by
  simp only [stepPure, applyResponseCore]
  have hheap := heap_update_twice w.heap w.prog.metricsAddr
    (fun c => bumpMetrics c (r₁.Metrics.getD ⟨0, 0, 0, 0, 0, 0⟩))
    (fun c => bumpMetrics c (r₂.Metrics.getD ⟨0, 0, 0, 0, 0, 0⟩))
    (fun c => bumpMetrics_comm _ _ c)
  have hcomb := foldl_AddMetadata_swap r₁.Traces r₂.Traces w.prog.resultsCombiner
  simp only [World.mk.injEq]
  exact ⟨hheap, by rw [hcomb]⟩

instance : RightCommutative stepPure := ⟨fun w r₁ r₂ => stepPure_comm w r₁ r₂⟩

/-- `applyResponses` is the pure fold guarded by the absence of nil
`Metrics` pointers. -/
theorem applyResponses_eq (rs : List SearchResponse) : ∀ w : World,
    applyResponses w rs =
      if rs.all (fun r => r.Metrics.isSome) then some (rs.foldl stepPure w) else none := by
  induction rs with
  | nil => intro w; simp [applyResponses]
  | cons r rs ih =>
    intro w
    cases hm : r.Metrics with
    | none => simp [applyResponses, addResponse, hm]
    | some m =>
      simp only [applyResponses, addResponse, hm, ih, List.all_cons, List.foldl_cons,
        Option.isSome_some, Bool.true_and]
      have : stepPure w r = applyResponseCore w r.Traces m := by
        simp [stepPure, hm]
      rw [this]

/-- A `Bool.all` over a list is invariant under permutation. -/
theorem perm_all_eq {α : Type} {p : α → Bool} {l₁ l₂ : List α} (h : l₁.Perm l₂) :
    l₁.all p = l₂.all p := by
  induction h with
  | nil => rfl
  | cons x _ ih => simp [List.all_cons, ih]
  | swap x y l => simp [List.all_cons, Bool.and_left_comm]
  | trans _ _ ih₁ ih₂ => rw [ih₁, ih₂]

/-- Feeding any permutation of the partial results yields the same final
world (or faults in both orders). -/
theorem applyResponses_perm {l₁ l₂ : List SearchResponse} (h : l₁.Perm l₂) (w : World) :
    applyResponses w l₁ = applyResponses w l₂ := by
  rw [applyResponses_eq, applyResponses_eq, perm_all_eq h, h.foldl_eq w]

/-! ## The run-wide invariant over arbitrary interface-call sequences -/

/-- The aggregate metrics record the sink currently points at. -/
def metricsView (w : World) : SearchMetrics := heapGet w.heap w.prog.metricsAddr

theorem intWrap64_add_left (a b : Int) : intWrap64 (intWrap64 a + b) = intWrap64 (a + b) := by
  unfold intWrap64
  omega

theorem intWrap64_idem (a : Int) : intWrap64 (intWrap64 a) = intWrap64 a := by
  simpa using intWrap64_add_left a 0

/-- Preservation along any interface-call sequence: the metrics address,
the limit and the plan totals never change; `CompletedJobs` advances by
the number of `addResponse` calls modulo `2^32`; `finishedRequests`
advances by the same number with 64-bit signed wrap-around. -/
theorem runOps_invariant (ops : List Op) : ∀ (w w' : World),
    runOps w ops = some w' →
    w.prog.metricsAddr < w.heap.length →
    (metricsView w).CompletedJobs < 2 ^ 32 →
    intWrap64 w.prog.finishedRequests = w.prog.finishedRequests →
    w'.prog.metricsAddr = w.prog.metricsAddr ∧
    w'.prog.metricsAddr < w'.heap.length ∧
    w'.prog.limit = w.prog.limit ∧
    (metricsView w').TotalBlocks = (metricsView w).TotalBlocks ∧
    (metricsView w').TotalJobs = (metricsView w).TotalJobs ∧
    (metricsView w').TotalBlockBytes = (metricsView w).TotalBlockBytes ∧
    (metricsView w').CompletedJobs
      = ((metricsView w).CompletedJobs + countAdds ops) % 2 ^ 32 ∧
    w'.prog.finishedRequests
      = intWrap64 (w.prog.finishedRequests + (countAdds ops : Int)) := by
  induction ops with
  | nil =>
    intro w w' hrun hlt hCJ hfr
    have hw : some w = some w' := by simpa [runOps] using hrun
    obtain rfl : w = w' := by injection hw
    refine ⟨rfl, hlt, rfl, rfl, rfl, rfl, ?_, ?_⟩
    · simp only [countAdds, Nat.add_zero]
      omega
    · simpa [countAdds] using hfr.symm
  | cons o os ih =>
    intro w w' hrun hlt hCJ hfr
    cases o with
    | opSetStatus c m =>
      have hrun' : runOps (setStatus w c m) os = some w' := by
        simpa [runOps, stepOp] using hrun
      obtain ⟨h1, h2, h3, h4, h5, h6, h7, h8⟩ := ih _ _ hrun' hlt hCJ hfr
      exact ⟨h1, h2, h3, h4, h5, h6, by simpa [countAdds] using h7,
        by simpa [countAdds] using h8⟩
    | opSetError e =>
      have hrun' : runOps (setError w e) os = some w' := by
        simpa [runOps, stepOp] using hrun
      obtain ⟨h1, h2, h3, h4, h5, h6, h7, h8⟩ := ih _ _ hrun' hlt hCJ hfr
      exact ⟨h1, h2, h3, h4, h5, h6, by simpa [countAdds] using h7,
        by simpa [countAdds] using h8⟩
    | opShouldQuit =>
      have hrun' : runOps w os = some w' := by
        simpa [runOps, stepOp] using hrun
      obtain ⟨h1, h2, h3, h4, h5, h6, h7, h8⟩ := ih _ _ hrun' hlt hCJ hfr
      exact ⟨h1, h2, h3, h4, h5, h6, by simpa [countAdds] using h7,
        by simpa [countAdds] using h8⟩
    | opResult =>
      have hrun' : runOps (result w).1 os = some w' := by
        simpa [runOps, stepOp] using hrun
      have hlt1 : (result w).1.prog.metricsAddr < (result w).1.heap.length := by
        simp only [result]
        simp only [List.length_append, List.length_singleton]
        omega
      have hmv : metricsView (result w).1 = metricsView w := by
        simp only [metricsView, result]
        exact heapGet_append_left hlt
      obtain ⟨h1, h2, h3, h4, h5, h6, h7, h8⟩ :=
        ih _ _ hrun' hlt1 (by rw [hmv]; exact hCJ) hfr
      rw [hmv] at h4 h5 h6 h7
      exact ⟨h1, h2, h3, h4, h5, h6, by simpa [countAdds] using h7,
        by simpa [countAdds] using h8⟩
    | opAddResponse r =>
      cases hm : r.Metrics with
      | none => simp [runOps, stepOp, addResponse, hm] at hrun
      | some m =>
        have hrun' : runOps (applyResponseCore w r.Traces m) os = some w' := by
          simpa [runOps, stepOp, addResponse, hm] using hrun
        have hlt1 : (applyResponseCore w r.Traces m).prog.metricsAddr
            < (applyResponseCore w r.Traces m).heap.length := by
          simpa [applyResponseCore] using hlt
        have hmv : metricsView (applyResponseCore w r.Traces m)
            = bumpMetrics (metricsView w) m := by
          simp only [metricsView, applyResponseCore]
          exact heapGet_set_self _ hlt
        have hCJ1 : (metricsView (applyResponseCore w r.Traces m)).CompletedJobs < 2 ^ 32 := by
          rw [hmv]
          simp only [bumpMetrics, u32add]
          omega
        have hfr1 : intWrap64 (applyResponseCore w r.Traces m).prog.finishedRequests
            = (applyResponseCore w r.Traces m).prog.finishedRequests := by
          simp only [applyResponseCore]
          exact intWrap64_idem _
        obtain ⟨h1, h2, h3, h4, h5, h6, h7, h8⟩ := ih _ _ hrun' hlt1 hCJ1 hfr1
        rw [hmv] at h4 h5 h6 h7
        refine ⟨h1, h2, h3, h4, h5, h6, ?_, ?_⟩
        · rw [h7]
          simp only [bumpMetrics, u32add, countAdds]
          omega
        · rw [h8]
          show intWrap64 (intWrap64 (w.prog.finishedRequests + 1) + (countAdds os : Int))
            = intWrap64 (w.prog.finishedRequests + (countAdds (Op.opAddResponse r :: os) : Int))
          rw [intWrap64_add_left]
          have : (countAdds (Op.opAddResponse r :: os) : Int) = (countAdds os : Int) + 1 := by
            simp [countAdds]
          rw [this]
          ring_nf

/-- `applyResponses` is `runOps` restricted to `addResponse` calls. -/
theorem applyResponses_runOps (rs : List SearchResponse) : ∀ w : World,
    applyResponses w rs = runOps w (rs.map Op.opAddResponse) := by
  induction rs with
  | nil => intro w; rfl
  | cons r rs ih =>
    intro w
    cases hm : r.Metrics with
    | none => simp [applyResponses, runOps, stepOp, addResponse, hm]
    | some m => simp [applyResponses, runOps, stepOp, addResponse, hm, ih]

theorem countAdds_map (rs : List SearchResponse) :
    countAdds (rs.map Op.opAddResponse) = rs.length := by
  induction rs with
  | nil => rfl
  | cons r rs ih => simp [countAdds, ih]

/-- Frame property of `addResponse` sequences: they write the heap only at
the sink's own metrics address, and never change that address or the heap
footprint. -/
theorem applyResponses_frame (rs : List SearchResponse) : ∀ (w w' : World),
    applyResponses w rs = some w' →
    w'.prog.metricsAddr = w.prog.metricsAddr ∧
    w'.heap.length = w.heap.length ∧
    ∀ a, a ≠ w.prog.metricsAddr → heapGet w'.heap a = heapGet w.heap a := by
  induction rs with
  | nil =>
    intro w w' hrun
    have hw : some w = some w' := by simpa [applyResponses] using hrun
    obtain rfl : w = w' := by injection hw
    exact ⟨rfl, rfl, fun a _ => rfl⟩
  | cons r rs ih =>
    intro w w' hrun
    cases hm : r.Metrics with
    | none => simp [applyResponses, addResponse, hm] at hrun
    | some m =>
      have hrun' : applyResponses (applyResponseCore w r.Traces m) rs = some w' := by
        simpa [applyResponses, addResponse, hm] using hrun
      obtain ⟨h1, h2, h3⟩ := ih _ _ hrun'
      refine ⟨h1, ?_, ?_⟩
      · rw [h2]
        simp [applyResponseCore]
      · intro a ha
        rw [h3 a ha]
        simp only [applyResponseCore]
        exact heapGet_set_ne _ (fun hx => ha hx.symm)

theorem runOps_append (l₁ l₂ : List Op) : ∀ w : World,
    runOps w (l₁ ++ l₂) = (runOps w l₁).bind fun w' => runOps w' l₂ := by
  induction l₁ with
  | nil => intro w; simp [runOps]
  | cons o os ih =>
    intro w
    cases h : stepOp w o with
    | none => simp [runOps, h]
    | some w₁ => simp [runOps, h, ih]

theorem countAdds_replicate (n : Nat) (r : SearchResponse) :
    countAdds (List.replicate n (Op.opAddResponse r)) = n := by
  induction n with
  | zero => rfl
  | succ n ih => simp [List.replicate_succ, countAdds, ih]

/-- Closed form for a run of `n` empty partial results against a fresh
sink: `CompletedJobs` wraps modulo `2^32` while `finishedRequests` wraps
modulo `2^64` (two's complement). -/
theorem runOps_replicate_empty (n : Nat) :
    runOps (newSearchProgress false 100 0 0 0)
        (List.replicate n (Op.opAddResponse ⟨[], some ⟨0, 0, 0, 0, 0, 0⟩⟩))
      = some { heap := [⟨0, 0, 0, n % 2 ^ 32, 0, 0⟩],
               prog := { err := none, statusCode := 200, statusMsg := "", ctxErr := false,
                         resultsCombiner := [], metricsAddr := 0,
                         finishedRequests := intWrap64 n, limit := 100 } } := by
  induction n with
  | zero => decide
  | succ n ih =>
    rw [List.replicate_succ', runOps_append, ih]
    simp only [Option.some_bind]
    simp only [runOps, stepOp, addResponse, applyResponseCore, heapGet, List.getD,
      List.get?_cons_zero, Option.getD_some,
      bumpMetrics, u64add, u32add, List.set_cons_zero]
    simp only [Option.some.injEq, World.mk.injEq, searchProgress.mk.injEq,
      SearchMetrics.mk.injEq, List.cons.injEq, List.foldl_nil, and_true, true_and]
    refine ⟨⟨?_, ?_, ?_⟩, ?_⟩
    · norm_num
    · norm_num
    · omega
    · rw [intWrap64_add_left]
      norm_cast

end Tempo


/-!
## The claims
-/

open Tempo AzureModel

/-- C1: for every sink state, `shouldQuit()` returns true if and only if
the recorded error is non-nil, or the cancellation context has fired, or
the recorded status code is outside the 2xx range (`statusCode/100 != 2`
with Go's truncating division), or the combiner's distinct-entry count is
strictly greater than the limit.  The equivalence is stated over arbitrary
states, so the decision is a pure level check: any state in which all four
disjuncts are false — however it was reached — yields `false` again. -/
theorem C1_shouldQuit_level_check (w : Tempo.World) :
    Tempo.shouldQuit w = true ↔
      (w.prog.err ≠ none ∨ w.prog.ctxErr = true ∨
       w.prog.statusCode.tdiv 100 ≠ 2 ∨
       (Tempo.combinerCount w.prog.resultsCombiner : Int) > w.prog.limit) := by
  unfold Tempo.shouldQuit Tempo.internalShouldQuit
  split_ifs with h1 h2 h3 h4 <;>
    simp_all [Option.isSome_iff_ne_none]

/-- C7: `setError` is last-wins — after any non-empty sequence of
`setError` calls the recorded error, and the `err` field of a subsequent
snapshot, is exactly the last error passed, and `shouldQuit()` is true. -/
theorem C7_setError_last_wins (w : Tempo.World) (es : List Tempo.GoErr) (e : Tempo.GoErr) :
    ((es ++ [e]).foldl (fun w x => Tempo.setError w (some x)) w).prog.err = some e ∧
    Tempo.shouldQuit ((es ++ [e]).foldl (fun w x => Tempo.setError w (some x)) w) = true ∧
    (Tempo.result ((es ++ [e]).foldl (fun w x => Tempo.setError w (some x)) w)).2.err
      = some e := by
  rw [List.foldl_append]
  refine ⟨rfl, ?_, rfl⟩
  simp [Tempo.shouldQuit, Tempo.internalShouldQuit, Tempo.setError]

/-- C9: `addResponse` succeeds exactly when the partial result's `Metrics`
field is non-nil; with a nil `Metrics` it faults (returns `none`) instead
of recording an error. -/
theorem C9_addResponse_nil_metrics_faults (w : Tempo.World) (res : Tempo.SearchResponse) :
    (Tempo.addResponse w res).isSome = res.Metrics.isSome := by
  cases hm : res.Metrics <;> simp [Tempo.addResponse, hm]

/-- The metrics record of a fresh sink holds the narrowed plan totals and
zeroed counters. -/
theorem metricsView_new (ctxFired : Bool) (limit totalJobs totalBlocks totalBlockBytes : Int) :
    Tempo.metricsView (Tempo.newSearchProgress ctxFired limit totalJobs totalBlocks totalBlockBytes)
      = ⟨0, 0, Tempo.u32ofInt totalBlocks, 0, Tempo.u32ofInt totalJobs,
         Tempo.u64ofInt totalBlockBytes⟩ := rfl

/-- The snapshot's freshly allocated metrics record equals the sink's
record at snapshot time. -/
theorem result_snapshot_metrics (w : Tempo.World) :
    Tempo.heapGet (Tempo.result w).1.heap (Tempo.result w).2.response.MetricsAddr
      = Tempo.metricsView w := by
  simp only [Tempo.result]
  exact Tempo.heapGet_append_length _ _

/-- C2: feeding any two permutations of the same finite multiset of
partial results into freshly constructed sinks with the same construction
parameters yields identical final states — in particular identical
snapshot result-entry sequences and equal distinct counts (and if one
order faults on a nil `Metrics`, so does the other). -/
theorem C2_order_independence {l₁ l₂ : List Tempo.SearchResponse} (hperm : l₁.Perm l₂)
    (ctxFired : Bool) (limit totalJobs totalBlocks totalBlockBytes : Int) :
    Tempo.applyResponses
        (Tempo.newSearchProgress ctxFired limit totalJobs totalBlocks totalBlockBytes) l₁
      = Tempo.applyResponses
        (Tempo.newSearchProgress ctxFired limit totalJobs totalBlocks totalBlockBytes) l₂ ∧
    Option.map (fun w => ((Tempo.result w).2.response.Traces,
        Tempo.combinerCount w.prog.resultsCombiner))
        (Tempo.applyResponses
          (Tempo.newSearchProgress ctxFired limit totalJobs totalBlocks totalBlockBytes) l₁)
      = Option.map (fun w => ((Tempo.result w).2.response.Traces,
        Tempo.combinerCount w.prog.resultsCombiner))
        (Tempo.applyResponses
          (Tempo.newSearchProgress ctxFired limit totalJobs totalBlocks totalBlockBytes) l₂) := by
  refine ⟨Tempo.applyResponses_perm hperm _, ?_⟩
  rw [Tempo.applyResponses_perm hperm]

/-- C2 witness: two overlapping partial results in both orders. -/
theorem C2_order_independence_witness :
    Tempo.applyResponses (Tempo.newSearchProgress false 10 1 2 3)
        [⟨[⟨1, 5⟩], some ⟨1, 2, 0, 0, 0, 0⟩⟩, ⟨[⟨2, 7⟩, ⟨1, 4⟩], some ⟨3, 4, 0, 0, 0, 0⟩⟩]
      = Tempo.applyResponses (Tempo.newSearchProgress false 10 1 2 3)
        [⟨[⟨2, 7⟩, ⟨1, 4⟩], some ⟨3, 4, 0, 0, 0, 0⟩⟩, ⟨[⟨1, 5⟩], some ⟨1, 2, 0, 0, 0, 0⟩⟩] :=
  (C2_order_independence (List.Perm.swap _ _ _) false 10 1 2 3).1

/-- C5: no sequence of `addResponse` calls changes the plan totals
`TotalJobs`, `TotalBlocks`, `TotalBlockBytes` from their construction-time
values; the partial results' own plan-total fields are ignored. -/
theorem C5_plan_totals_immutable (ctxFired : Bool)
    (limit totalJobs totalBlocks totalBlockBytes : Int)
    (rs : List Tempo.SearchResponse) (w' : Tempo.World)
    (hrun : Tempo.applyResponses
        (Tempo.newSearchProgress ctxFired limit totalJobs totalBlocks totalBlockBytes) rs
      = some w') :
    (Tempo.metricsView w').TotalJobs = Tempo.u32ofInt totalJobs ∧
    (Tempo.metricsView w').TotalBlocks = Tempo.u32ofInt totalBlocks ∧
    (Tempo.metricsView w').TotalBlockBytes = Tempo.u64ofInt totalBlockBytes := by
  rw [Tempo.applyResponses_runOps] at hrun
  obtain ⟨-, -, -, h4, h5, h6, -, -⟩ :=
    Tempo.runOps_invariant _ _ _ hrun Nat.zero_lt_one
      (by rw [metricsView_new]; norm_num) (by show Tempo.intWrap64 0 = 0; decide)
  rw [metricsView_new] at h4 h5 h6
  exact ⟨h5, h4, h6⟩

/-- C5 witness: a partial result carrying nonzero plan totals of its own
does not disturb the constructed totals 9/11/13. -/
theorem C5_plan_totals_immutable_witness :
    (Tempo.metricsView
        ⟨[⟨1, 2, 11, 1, 9, 13⟩],
         ⟨none, 200, "", false, [], 0, 1, 10⟩⟩).TotalJobs = Tempo.u32ofInt 9 ∧
    (Tempo.metricsView
        ⟨[⟨1, 2, 11, 1, 9, 13⟩],
         ⟨none, 200, "", false, [], 0, 1, 10⟩⟩).TotalBlocks = Tempo.u32ofInt 11 ∧
    (Tempo.metricsView
        ⟨[⟨1, 2, 11, 1, 9, 13⟩],
         ⟨none, 200, "", false, [], 0, 1, 10⟩⟩).TotalBlockBytes = Tempo.u64ofInt 13 :=
  C5_plan_totals_immutable false 10 9 11 13
    [⟨[], some ⟨1, 2, 100, 100, 100, 100⟩⟩] _ (by decide)

/-- C10: the factory narrows its plan-total arguments — `totalBlocks` and
`totalJobs` to `uint32` (modulo `2^32`) and `totalBlockBytes` to `uint64`
(modulo `2^64`) — so after any interface-call sequence every snapshot
reports the wrapped values. -/
theorem C10_plan_totals_narrowed (ctxFired : Bool)
    (limit totalJobs totalBlocks totalBlockBytes : Int)
    (ops : List Tempo.Op) (w' : Tempo.World)
    (hrun : Tempo.runOps
        (Tempo.newSearchProgress ctxFired limit totalJobs totalBlocks totalBlockBytes) ops
      = some w') :
    (Tempo.heapGet (Tempo.result w').1.heap
        (Tempo.result w').2.response.MetricsAddr).TotalJobs
      = ((totalJobs % (2 ^ 32 : Int)).toNat) ∧
    (Tempo.heapGet (Tempo.result w').1.heap
        (Tempo.result w').2.response.MetricsAddr).TotalBlocks
      = ((totalBlocks % (2 ^ 32 : Int)).toNat) ∧
    (Tempo.heapGet (Tempo.result w').1.heap
        (Tempo.result w').2.response.MetricsAddr).TotalBlockBytes
      = ((totalBlockBytes % (2 ^ 64 : Int)).toNat) := by
  obtain ⟨-, -, -, h4, h5, h6, -, -⟩ :=
    Tempo.runOps_invariant _ _ _ hrun Nat.zero_lt_one
      (by rw [metricsView_new]; norm_num) (by show Tempo.intWrap64 0 = 0; decide)
  rw [metricsView_new] at h4 h5 h6
  rw [result_snapshot_metrics]
  exact ⟨h5, h4, h6⟩

/-- C10 witness: `totalJobs = 2^32` wraps to `0`, `totalBlocks = -1` wraps
to `2^32 - 1`, and `totalBlockBytes = 2^64` wraps to `0`. -/
theorem C10_plan_totals_narrowed_witness :
    ((Tempo.heapGet
        (Tempo.result (Tempo.newSearchProgress false 10 (2 ^ 32) (-1) (2 ^ 64))).1.heap
        (Tempo.result (Tempo.newSearchProgress false 10 (2 ^ 32) (-1) (2 ^ 64))).2.response.MetricsAddr).TotalJobs
      = (((2 ^ 32 : Int) % (2 ^ 32 : Int)).toNat) ∧
    (Tempo.heapGet
        (Tempo.result (Tempo.newSearchProgress false 10 (2 ^ 32) (-1) (2 ^ 64))).1.heap
        (Tempo.result (Tempo.newSearchProgress false 10 (2 ^ 32) (-1) (2 ^ 64))).2.response.MetricsAddr).TotalBlocks
      = (((-1 : Int) % (2 ^ 32 : Int)).toNat) ∧
    (Tempo.heapGet
        (Tempo.result (Tempo.newSearchProgress false 10 (2 ^ 32) (-1) (2 ^ 64))).1.heap
        (Tempo.result (Tempo.newSearchProgress false 10 (2 ^ 32) (-1) (2 ^ 64))).2.response.MetricsAddr).TotalBlockBytes
      = (((2 ^ 64 : Int) % (2 ^ 64 : Int)).toNat)) ∧
    ((2 ^ 32 : Int) % (2 ^ 32 : Int)).toNat = 0 ∧
    ((-1 : Int) % (2 ^ 32 : Int)).toNat = 4294967295 ∧
    ((2 ^ 64 : Int) % (2 ^ 64 : Int)).toNat = 0 :=
  ⟨C10_plan_totals_narrowed false 10 (2 ^ 32) (-1) (2 ^ 64) [] _ rfl,
   by decide, by decide, by decide⟩

/-- C4: the limit check is strict — while the distinct count equals the
limit exactly (and no error, cancellation or non-2xx status is present)
`shouldQuit()` is false; the snapshot never truncates, returning every
accumulated entry; and in the concrete Scenario A with limit 3, merging
{A, B} gives `shouldQuit() = false` with count 2, then merging {C, D}
gives count 4, `shouldQuit() = true`, and a snapshot with all 4 entries. -/
theorem C4_limit_strictly_greater :
    (∀ w : Tempo.World, w.prog.err = none → w.prog.ctxErr = false →
      w.prog.statusCode.tdiv 100 = 2 →
      (Tempo.combinerCount w.prog.resultsCombiner : Int) = w.prog.limit →
      Tempo.shouldQuit w = false) ∧
    (∀ w : Tempo.World,
      (Tempo.result w).2.response.Traces = Tempo.combinerMetadata w.prog.resultsCombiner) ∧
    (Option.map Tempo.shouldQuit
        (Tempo.applyResponses (Tempo.newSearchProgress false 3 0 0 0)
          [⟨[⟨1, 0⟩, ⟨2, 0⟩], some ⟨0, 0, 0, 0, 0, 0⟩⟩]) = some false ∧
     Option.map (fun w => Tempo.combinerCount w.prog.resultsCombiner)
        (Tempo.applyResponses (Tempo.newSearchProgress false 3 0 0 0)
          [⟨[⟨1, 0⟩, ⟨2, 0⟩], some ⟨0, 0, 0, 0, 0, 0⟩⟩]) = some 2 ∧
     Option.map Tempo.shouldQuit
        (Tempo.applyResponses (Tempo.newSearchProgress false 3 0 0 0)
          [⟨[⟨1, 0⟩, ⟨2, 0⟩], some ⟨0, 0, 0, 0, 0, 0⟩⟩,
           ⟨[⟨3, 0⟩, ⟨4, 0⟩], some ⟨0, 0, 0, 0, 0, 0⟩⟩]) = some true ∧
     Option.map (fun w => Tempo.combinerCount w.prog.resultsCombiner)
        (Tempo.applyResponses (Tempo.newSearchProgress false 3 0 0 0)
          [⟨[⟨1, 0⟩, ⟨2, 0⟩], some ⟨0, 0, 0, 0, 0, 0⟩⟩,
           ⟨[⟨3, 0⟩, ⟨4, 0⟩], some ⟨0, 0, 0, 0, 0, 0⟩⟩]) = some 4 ∧
     Option.map (fun w => (Tempo.result w).2.response.Traces)
        (Tempo.applyResponses (Tempo.newSearchProgress false 3 0 0 0)
          [⟨[⟨1, 0⟩, ⟨2, 0⟩], some ⟨0, 0, 0, 0, 0, 0⟩⟩,
           ⟨[⟨3, 0⟩, ⟨4, 0⟩], some ⟨0, 0, 0, 0, 0, 0⟩⟩])
       = some [⟨1, 0⟩, ⟨2, 0⟩, ⟨3, 0⟩, ⟨4, 0⟩]) := by
  refine ⟨?_, fun w => rfl, by decide, by decide, by decide, by decide, by decide⟩
  intro w herr hctx hstatus hcount
  unfold Tempo.shouldQuit Tempo.internalShouldQuit
  simp [herr, hctx, hstatus, hcount]

/-- C4 witness: a fresh sink with limit 0 has count equal to its limit and
does not quit. -/
theorem C4_limit_strictly_greater_witness :
    Tempo.shouldQuit (Tempo.newSearchProgress false 0 0 0 0) = false :=
  C4_limit_strictly_greater.1 (Tempo.newSearchProgress false 0 0 0 0)
    rfl rfl (by decide) (by decide)

/-- C6 (amended): after any interface-call sequence containing exactly N
`addResponse` calls, with N below `2^32`, both the sink state and the
snapshot satisfy `finishedRequests = completedJobs = N`.  (The bound is
forced by the field widths: `CompletedJobs` is a `uint32` and wraps at
`2^32`, while `finishedRequests` is a 64-bit `int`; see the
counterexample.) -/
theorem C6_counter_parity (ctxFired : Bool)
    (limit totalJobs totalBlocks totalBlockBytes : Int)
    (ops : List Tempo.Op) (w' : Tempo.World)
    (hrun : Tempo.runOps
        (Tempo.newSearchProgress ctxFired limit totalJobs totalBlocks totalBlockBytes) ops
      = some w')
    (hN : Tempo.countAdds ops < 2 ^ 32) :
    w'.prog.finishedRequests = (Tempo.countAdds ops : Int) ∧
    (Tempo.metricsView w').CompletedJobs = Tempo.countAdds ops ∧
    (Tempo.result w').2.finishedRequests = (Tempo.countAdds ops : Int) ∧
    (Tempo.heapGet (Tempo.result w').1.heap
        (Tempo.result w').2.response.MetricsAddr).CompletedJobs
      = Tempo.countAdds ops := by
  obtain ⟨-, -, -, -, -, -, h7, h8⟩ :=
    Tempo.runOps_invariant _ _ _ hrun Nat.zero_lt_one
      (by rw [metricsView_new]; norm_num) (by show Tempo.intWrap64 0 = 0; decide)
  rw [metricsView_new] at h7
  dsimp only at h7
  dsimp only [Tempo.newSearchProgress] at h8
  have hCJ : (Tempo.metricsView w').CompletedJobs = Tempo.countAdds ops := by
    rw [h7]
    omega
  have hfr : w'.prog.finishedRequests = (Tempo.countAdds ops : Int) := by
    rw [h8]
    unfold Tempo.intWrap64
    omega
  refine ⟨hfr, hCJ, hfr, ?_⟩
  rw [result_snapshot_metrics]
  exact hCJ

/-- C6 witness: one `addResponse` among other interface calls gives
`finishedRequests = completedJobs = 1`. -/
theorem C6_counter_parity_witness :
    (⟨[⟨1, 1, 3, 1, 2, 4⟩, ⟨1, 1, 3, 1, 2, 4⟩],
      ⟨none, 500, "boom", true, [⟨9, 9⟩], 0, 1, 7⟩⟩ : Tempo.World).prog.finishedRequests
      = (Tempo.countAdds
          [Tempo.Op.opSetStatus 500 "boom",
           Tempo.Op.opAddResponse ⟨[⟨9, 9⟩], some ⟨1, 1, 0, 0, 0, 0⟩⟩,
           Tempo.Op.opShouldQuit, Tempo.Op.opResult] : Int) ∧
    (Tempo.metricsView
      (⟨[⟨1, 1, 3, 1, 2, 4⟩, ⟨1, 1, 3, 1, 2, 4⟩],
        ⟨none, 500, "boom", true, [⟨9, 9⟩], 0, 1, 7⟩⟩ : Tempo.World)).CompletedJobs
      = Tempo.countAdds
          [Tempo.Op.opSetStatus 500 "boom",
           Tempo.Op.opAddResponse ⟨[⟨9, 9⟩], some ⟨1, 1, 0, 0, 0, 0⟩⟩,
           Tempo.Op.opShouldQuit, Tempo.Op.opResult] ∧
    (Tempo.result
      (⟨[⟨1, 1, 3, 1, 2, 4⟩, ⟨1, 1, 3, 1, 2, 4⟩],
        ⟨none, 500, "boom", true, [⟨9, 9⟩], 0, 1, 7⟩⟩ : Tempo.World)).2.finishedRequests
      = (Tempo.countAdds
          [Tempo.Op.opSetStatus 500 "boom",
           Tempo.Op.opAddResponse ⟨[⟨9, 9⟩], some ⟨1, 1, 0, 0, 0, 0⟩⟩,
           Tempo.Op.opShouldQuit, Tempo.Op.opResult] : Int) ∧
    (Tempo.heapGet
        (Tempo.result
          (⟨[⟨1, 1, 3, 1, 2, 4⟩, ⟨1, 1, 3, 1, 2, 4⟩],
            ⟨none, 500, "boom", true, [⟨9, 9⟩], 0, 1, 7⟩⟩ : Tempo.World)).1.heap
        (Tempo.result
          (⟨[⟨1, 1, 3, 1, 2, 4⟩, ⟨1, 1, 3, 1, 2, 4⟩],
            ⟨none, 500, "boom", true, [⟨9, 9⟩], 0, 1, 7⟩⟩ : Tempo.World)).2.response.MetricsAddr).CompletedJobs
      = Tempo.countAdds
          [Tempo.Op.opSetStatus 500 "boom",
           Tempo.Op.opAddResponse ⟨[⟨9, 9⟩], some ⟨1, 1, 0, 0, 0, 0⟩⟩,
           Tempo.Op.opShouldQuit, Tempo.Op.opResult] :=
  C6_counter_parity true 7 2 3 4
    [Tempo.Op.opSetStatus 500 "boom",
     Tempo.Op.opAddResponse ⟨[⟨9, 9⟩], some ⟨1, 1, 0, 0, 0, 0⟩⟩,
     Tempo.Op.opShouldQuit, Tempo.Op.opResult] _ (by decide) (by decide)

/-- C6 counterexample: the claim as stated fails at N = `2^32` — a run of
exactly `2^32` `addResponse` calls on a fresh sink leaves the `uint32`
counter `CompletedJobs` at 0, not at N, while `finishedRequests` is N. -/
theorem C6_counter_parity_counterexample :
    Tempo.countAdds
        (List.replicate (2 ^ 32) (Tempo.Op.opAddResponse ⟨[], some ⟨0, 0, 0, 0, 0, 0⟩⟩))
      = 2 ^ 32 ∧
    Tempo.runOps (Tempo.newSearchProgress false 100 0 0 0)
        (List.replicate (2 ^ 32) (Tempo.Op.opAddResponse ⟨[], some ⟨0, 0, 0, 0, 0, 0⟩⟩))
      = some ⟨[⟨0, 0, 0, 0, 0, 0⟩],
              ⟨none, 200, "", false, [], 0, 4294967296, 100⟩⟩ ∧
    (Tempo.metricsView
        (⟨[⟨0, 0, 0, 0, 0, 0⟩],
          ⟨none, 200, "", false, [], 0, 4294967296, 100⟩⟩ : Tempo.World)).CompletedJobs
      = 0 ∧
    (0 : Nat) ≠ 2 ^ 32 := by
  refine ⟨Tempo.countAdds_replicate _ _, ?_, rfl, by decide⟩
  have h1 : (2 ^ 32 : Nat) % 2 ^ 32 = 0 := by norm_num
  have h2 : Tempo.intWrap64 ((2 ^ 32 : Nat) : Int) = 4294967296 := by
    unfold Tempo.intWrap64
    norm_num
  rw [Tempo.runOps_replicate_empty, h1, h2]

/-- C3: snapshot isolation — the metrics record inside a snapshot is a
freshly allocated value copy, so any later sequence of `addResponse` calls
on the sink leaves every field of the snapshot unchanged: the heap cell
the snapshot points at keeps the value the sink had at snapshot time, and
the scalar fields and the entry sequence are values fixed at snapshot
time. -/
theorem C3_snapshot_isolation (w : Tempo.World) (rs : List Tempo.SearchResponse)
    (w₂ : Tempo.World) (hv : w.prog.metricsAddr < w.heap.length)
    (hrun : Tempo.applyResponses (Tempo.result w).1 rs = some w₂) :
    Tempo.heapGet w₂.heap (Tempo.result w).2.response.MetricsAddr
      = Tempo.heapGet (Tempo.result w).1.heap (Tempo.result w).2.response.MetricsAddr ∧
    Tempo.heapGet (Tempo.result w).1.heap (Tempo.result w).2.response.MetricsAddr
      = Tempo.metricsView w ∧
    (Tempo.result w).2.response.Traces = Tempo.combinerMetadata w.prog.resultsCombiner ∧
    (Tempo.result w).2.statusCode = w.prog.statusCode ∧
    (Tempo.result w).2.statusMsg = w.prog.statusMsg ∧
    (Tempo.result w).2.err = w.prog.err ∧
    (Tempo.result w).2.finishedRequests = w.prog.finishedRequests := by
  obtain ⟨-, -, hframe⟩ := Tempo.applyResponses_frame rs _ _ hrun
  refine ⟨?_, result_snapshot_metrics w, rfl, rfl, rfl, rfl, rfl⟩
  have hne : (Tempo.result w).2.response.MetricsAddr
      ≠ (Tempo.result w).1.prog.metricsAddr := by
    show w.heap.length ≠ w.prog.metricsAddr
    omega
  exact hframe _ hne

/-- C3 witness: a concrete sink, snapshot, and follow-up merge. -/
theorem C3_snapshot_isolation_witness :
    Tempo.heapGet
        (⟨[⟨1, 1, 1, 1, 1, 1⟩, ⟨0, 0, 1, 0, 1, 1⟩],
          ⟨none, 200, "", false, [⟨1, 1⟩], 0, 1, 5⟩⟩ : Tempo.World).heap
        (Tempo.result (Tempo.newSearchProgress false 5 1 1 1)).2.response.MetricsAddr
      = Tempo.heapGet
          (Tempo.result (Tempo.newSearchProgress false 5 1 1 1)).1.heap
          (Tempo.result (Tempo.newSearchProgress false 5 1 1 1)).2.response.MetricsAddr :=
  (C3_snapshot_isolation (Tempo.newSearchProgress false 5 1 1 1)
    [⟨[⟨1, 1⟩], some ⟨1, 1, 0, 0, 0, 0⟩⟩] _ Nat.zero_lt_one (by decide)).1

/-- C8: `WriteVersioned` compares the caller-supplied version token
against the current version — `VersionNew` when the object does not exist
— and on mismatch returns the distinct `ErrVersionDoesNotMatch` without
writing, leaving the store unchanged; when the token matches it performs
the write and returns the version read back. -/
theorem C8_write_versioned_guard (s : AzureModel.Store) (name : String)
    (data : AzureModel.Bytes) (version newTag : AzureModel.Version) :
    (s name = none → version ≠ AzureModel.VersionNew →
      AzureModel.WriteVersioned s name data version newTag
        = (s, .error .versionDoesNotMatch)) ∧
    (∀ b cur, s name = some (b, cur) → version ≠ cur →
      AzureModel.WriteVersioned s name data version newTag
        = (s, .error .versionDoesNotMatch)) ∧
    (s name = none → version = AzureModel.VersionNew →
      AzureModel.WriteVersioned s name data version newTag
        = (AzureModel.rawWrite s name data newTag, .ok newTag)) ∧
    (∀ b cur, s name = some (b, cur) → version = cur →
      AzureModel.WriteVersioned s name data version newTag
        = (AzureModel.rawWrite s name data newTag, .ok newTag)) := by
  refine ⟨?_, ?_, ?_, ?_⟩
  · intro hnone hne
    simp [AzureModel.WriteVersioned, hnone, hne]
  · intro b cur hsome hne
    simp [AzureModel.WriteVersioned, hsome, hne]
  · intro hnone heq
    simp [AzureModel.WriteVersioned, hnone, heq, AzureModel.ReadVersioned,
      AzureModel.rawWrite]
  · intro b cur hsome heq
    simp [AzureModel.WriteVersioned, hsome, heq, AzureModel.ReadVersioned,
      AzureModel.rawWrite]

/-- C8 witness: a store holding one object at version v1 — a write with
token v2 is refused and leaves the store unchanged, as the theorem
instantiates. -/
theorem C8_write_versioned_guard_witness :
    AzureModel.WriteVersioned
        (fun n => if n = "obj" then some ([1], "v1") else none)
        "obj" [2] "v2" "v9"
      = ((fun n => if n = "obj" then some ([1], "v1") else none), .error .versionDoesNotMatch) :=
  (C8_write_versioned_guard
      (fun n => if n = "obj" then some ([1], "v1") else none) "obj" [2] "v2" "v9").2.1
    [1] "v1" (by simp) (by decide)
